import Mathlib

/-!
Shallow embedding of the BBC Micro keyboard adapter (src/code.py), a
CircuitPython program that scans an 8 x 16 key matrix, debounces raw
observations and forwards key events to a USB HID sink.  Timestamps are
modelled as rationals, key codes as naturals, and the mutable objects
(HIDKeyboard, DebounceInput) as explicit state threaded through the
functions.  Each definition mirrors the Python function of the same name.
-/

namespace BBC

/- Key codes from adafruit_hid.keycode used by the table in code.py. -/
namespace Keycode

def A : Nat := 0x04
def B : Nat := 0x05
def C : Nat := 0x06
def D : Nat := 0x07
def E : Nat := 0x08
def F : Nat := 0x09
def G : Nat := 0x0A
def H : Nat := 0x0B
def I : Nat := 0x0C
def J : Nat := 0x0D
def K : Nat := 0x0E
def L : Nat := 0x0F
def M : Nat := 0x10
def N : Nat := 0x11
def O : Nat := 0x12
def P : Nat := 0x13
def Q : Nat := 0x14
def R : Nat := 0x15
def S : Nat := 0x16
def T : Nat := 0x17
def U : Nat := 0x18
def V : Nat := 0x19
def W : Nat := 0x1A
def X : Nat := 0x1B
def Y : Nat := 0x1C
def Z : Nat := 0x1D
def ONE : Nat := 0x1E
def TWO : Nat := 0x1F
def THREE : Nat := 0x20
def FOUR : Nat := 0x21
def FIVE : Nat := 0x22
def SIX : Nat := 0x23
def SEVEN : Nat := 0x24
def EIGHT : Nat := 0x25
def NINE : Nat := 0x26
def ZERO : Nat := 0x27
def RETURN : Nat := 0x28
def ESCAPE : Nat := 0x29
def BACKSPACE : Nat := 0x2A
def TAB : Nat := 0x2B
def SPACEBAR : Nat := 0x2C
def MINUS : Nat := 0x2D
def EQUALS : Nat := 0x2E
def LEFT_BRACKET : Nat := 0x2F
def RIGHT_BRACKET : Nat := 0x30
def BACKSLASH : Nat := 0x31
def POUND : Nat := 0x32
def SEMICOLON : Nat := 0x33
def QUOTE : Nat := 0x34
def COMMA : Nat := 0x36
def PERIOD : Nat := 0x37
def FORWARD_SLASH : Nat := 0x38
def CAPS_LOCK : Nat := 0x39
def F1 : Nat := 0x3A
def F2 : Nat := 0x3B
def F3 : Nat := 0x3C
def F4 : Nat := 0x3D
def F5 : Nat := 0x3E
def F6 : Nat := 0x3F
def F7 : Nat := 0x40
def F8 : Nat := 0x41
def F9 : Nat := 0x42
def F10 : Nat := 0x43
def DELETE : Nat := 0x4C
def RIGHT_ARROW : Nat := 0x4F
def LEFT_ARROW : Nat := 0x50
def DOWN_ARROW : Nat := 0x51
def UP_ARROW : Nat := 0x52
def KEYPAD_ASTERISK : Nat := 0x55
def LEFT_CONTROL : Nat := 0xE0
def SHIFT : Nat := 0xE1
def ALT : Nat := 0xE2
def WINDOWS : Nat := 0xE3

end Keycode

/-- A resolved key identity, as stored in the pending queue of
DebounceInput: either a bare key code, or a Shifted wrapper object
(class Shifted in the source) around a code.  Each Shifted object in
the static table has a distinct inner code, so structural equality
coincides with the Python object identity used by dict membership. -/
inductive KeyId where
  | code (c : Nat)
  | shifted (c : Nat)
deriving DecidableEq, Repr

/-- An entry of the static key table: either a single key (bare code or
Shifted), or an AltShift object carrying a primary key and an alternate
key, each of which is itself a bare code or a Shifted. -/
inductive KeySpec where
  | simple (k : KeyId)
  | altShift (k alt : KeyId)
deriving DecidableEq, Repr

/-- State of class HIDKeyboard: the shift_down flag it maintains.
The USB transport itself is external; what it receives is recorded as
the event list returned next to each state. -/
structure Sink where
  shift_down : Bool
deriving DecidableEq, Repr

/-- One call on the HID sink: keyboard.press or keyboard.release. -/
inductive Ev where
  | press (c : Nat)
  | release (c : Nat)
deriving DecidableEq, Repr

/-- HIDKeyboard.key_press: forward the press and track the shift flag. -/
def key_press (sink : Sink) (value : Nat) : Sink × Ev :=
  (⟨if value = Keycode.SHIFT then true else sink.shift_down⟩, Ev.press value)

/-- HIDKeyboard.key_release: forward the release and track the shift flag. -/
def key_release (sink : Sink) (value : Nat) : Sink × Ev :=
  (⟨if value = Keycode.SHIFT then false else sink.shift_down⟩, Ev.release value)

/-- DebounceInput.key_down: the down-event emission.  With shift_escape
set the sequence is wrapped in release-SHIFT ... press-SHIFT; a Shifted
identity emits the press-SHIFT, press-code, release-SHIFT triple. -/
def key_down (sink : Sink) (value : KeyId) (shift_escape : Bool) : Sink × List Ev :=
  let r1 := if shift_escape then
      (let p := key_release sink Keycode.SHIFT; (p.1, [p.2]))
    else (sink, [])
  let r2 :=
    match value with
    | KeyId.shifted c =>
        let a := key_press r1.1 Keycode.SHIFT
        let b := key_press a.1 c
        let d := key_release b.1 Keycode.SHIFT
        (d.1, [a.2, b.2, d.2])
    | KeyId.code c =>
        let a := key_press r1.1 c
        (a.1, [a.2])
  let r3 := if shift_escape then
      (let p := key_press r2.1 Keycode.SHIFT; (p.1, [p.2]))
    else (r2.1, [])
  (r3.1, r1.2 ++ r2.2 ++ r3.2)

/-- DebounceInput.key_up: the up-event emission. -/
def key_up (sink : Sink) (value : KeyId) : Sink × List Ev :=
  match value with
  | KeyId.shifted c =>
      let a := key_release sink Keycode.SHIFT
      let b := key_release a.1 c
      (b.1, [a.2, b.2])
  | KeyId.code c =>
      let a := key_release sink c
      (a.1, [a.2])

/-- State of class DebounceInput: the pending queue (a dict, modelled as
an association list in insertion order), the recent_release memory, the
two configured delays and the no_input_registered flag.  The unused
short_queue field of the source is omitted (dead state). -/
structure DebState where
  queue : List (KeyId × ℚ)
  recent_release : Option KeyId
  delay : ℚ
  short_delay : ℚ
  no_input_registered : Bool
deriving DecidableEq, Repr

/-- DebounceInput() with the default delays 0.15 and 0.09. -/
def initState : DebState :=
  ⟨[], none, 3 / 20, 9 / 100, false⟩

/-- The AltShift resolution performed at the top of DebounceInput.input:
an AltShift observed with the sink shift flag live resolves to its
alternate with the escape flag set; otherwise to its primary. -/
def resolve (shift_down : Bool) : KeySpec → KeyId × Bool
  | KeySpec.simple k => (k, false)
  | KeySpec.altShift k alt => if shift_down then (alt, true) else (k, false)

/-- Result of one DebounceInput.input call: updated sink and state, the
events sent to the sink, and whether the SHIFT+BREAK combination was
recognized (the diagnostic report in the source). -/
structure InputOut where
  sink : Sink
  state : DebState
  events : List Ev
  break_combo : Bool
deriving DecidableEq, Repr

/-- DebounceInput.input: clear the no-input flag, resolve AltShift
against the live sink shift flag, recognize SHIFT+BREAK, and if the
resolved identity is not pending emit its down-event and record it. -/
def input (sink : Sink) (s : DebState) (value : KeySpec) (shift : Bool) (now : ℚ) : InputOut :=
  let r := resolve sink.shift_down value
  let bc := shift && decide (r.1 = KeyId.code Keycode.BACKSPACE)
  if r.1 ∈ s.queue.map Prod.fst then
    ⟨sink, { s with no_input_registered := false }, [], bc⟩
  else
    let kd := key_down sink r.1 r.2
    ⟨kd.1,
     { s with no_input_registered := false, queue := s.queue ++ [(r.1, now)] },
     kd.2, bc⟩

/-- Result of the expiry sweep over the pending queue. -/
structure LoopOut where
  queue : List (KeyId × ℚ)
  sink : Sink
  recent_release : Option KeyId
  events : List Ev
  expired : List KeyId
deriving DecidableEq, Repr

/-- The loop body of DebounceInput.check: every pending entry is
examined once, in order; an entry whose dwell has elapsed strictly is
removed, its up-event emitted and recent_release set to it.  The
expired field records, in order, the identities so removed. -/
def checkLoop (now delay short_delay : ℚ) (noIn : Bool) :
    Sink → Option KeyId → List (KeyId × ℚ) → LoopOut
  | sink, rr, [] => ⟨[], sink, rr, [], []⟩
  | sink, rr, (k, v) :: rest =>
      let d0 := if noIn then delay / 2 else delay
      let d := if rr = some k then short_delay else d0
      if v + d < now then
        let u := key_up sink k
        let r := checkLoop now delay short_delay noIn u.1 (some k) rest
        ⟨r.queue, r.sink, r.recent_release, u.2 ++ r.events, k :: r.expired⟩
      else
        let r := checkLoop now delay short_delay noIn sink rr rest
        ⟨(k, v) :: r.queue, r.sink, r.recent_release, r.events, r.expired⟩

/-- Result of one DebounceInput.check call. -/
structure CheckOut where
  sink : Sink
  state : DebState
  events : List Ev
  expired : List KeyId
deriving DecidableEq, Repr

/-- DebounceInput.check: run the expiry sweep with the current flag,
delays and recent_release. -/
def check (sink : Sink) (s : DebState) (now : ℚ) : CheckOut :=
  let r := checkLoop now s.delay s.short_delay s.no_input_registered
      sink s.recent_release s.queue
  ⟨r.sink, { s with queue := r.queue, recent_release := r.recent_release },
   r.events, r.expired⟩

/-- DebounceInput.no_input: set the no-input flag. -/
def no_input (s : DebState) : DebState :=
  { s with no_input_registered := true }

/-- Least-significant-bit-first binary digits of a natural number, with
an explicit fuel argument (the fuel v itself always suffices since the
argument at least halves every step); the minimal digit string of the
Python binary format, read in reverse. -/
def lsbDigitsGo : Nat → Nat → List Bool
  | 0, _ => []
  | _ + 1, 0 => []
  | f + 1, v + 1 => decide ((v + 1) % 2 = 1) :: lsbDigitsGo f ((v + 1) / 2)

/-- Least-significant-bit-first minimal binary digits. -/
def lsbDigits (v : Nat) : List Bool :=
  lsbDigitsGo v v

/-- int_to_bin from the source: format v in binary, zero padded on the
left to width max (the Python format never truncates: a value needing
more digits yields a longer list). -/
def int_to_bin (v max : Nat) : List Bool :=
  let s := if v = 0 then [false] else (lsbDigits v).reverse
  List.replicate (max - s.length) false ++ s

/-- Value of a most-significant-bit-first digit list. -/
def beVal (l : List Bool) : Nat :=
  l.foldl (fun a b => 2 * a + (if b then 1 else 0)) 0

/-- Value of a least-significant-bit-first digit list. -/
def lsbVal : List Bool → Nat
  | [] => 0
  | b :: t => (if b then 1 else 0) + 2 * lsbVal t

/-- The static key table of code.py: keys[row][column].  A bare Keycode
becomes simple (code c), Shifted(c) becomes simple (shifted c), and
AltShift pairs keep their two components. -/
def keys (row column : Nat) : Option KeySpec :=
  match row, column with
  | 2, 0 => some (KeySpec.simple (KeyId.code Keycode.F1))
  | 7, 1 => some (KeySpec.simple (KeyId.code Keycode.F2))
  | 7, 2 => some (KeySpec.simple (KeyId.code Keycode.F3))
  | 7, 3 => some (KeySpec.simple (KeyId.code Keycode.F4))
  | 1, 4 => some (KeySpec.simple (KeyId.code Keycode.F5))
  | 7, 4 => some (KeySpec.simple (KeyId.code Keycode.F6))
  | 7, 5 => some (KeySpec.simple (KeyId.code Keycode.F7))
  | 1, 6 => some (KeySpec.simple (KeyId.code Keycode.F8))
  | 7, 6 => some (KeySpec.simple (KeyId.code Keycode.F9))
  | 7, 7 => some (KeySpec.simple (KeyId.code Keycode.F10))
  | 7, 0 => some (KeySpec.simple (KeyId.code Keycode.ESCAPE))
  | 3, 0 => some (KeySpec.simple (KeyId.code Keycode.ONE))
  | 3, 1 => some (KeySpec.simple (KeyId.code Keycode.TWO))
  | 1, 1 => some (KeySpec.altShift (KeyId.code Keycode.THREE) (KeyId.code Keycode.POUND))
  | 1, 2 => some (KeySpec.simple (KeyId.code Keycode.FOUR))
  | 1, 3 => some (KeySpec.simple (KeyId.code Keycode.FIVE))
  | 3, 4 => some (KeySpec.altShift (KeyId.code Keycode.SIX) (KeyId.shifted Keycode.SEVEN))
  | 2, 4 => some (KeySpec.altShift (KeyId.code Keycode.SEVEN) (KeyId.code Keycode.QUOTE))
  | 1, 5 => some (KeySpec.altShift (KeyId.code Keycode.EIGHT) (KeyId.shifted Keycode.NINE))
  | 2, 6 => some (KeySpec.altShift (KeyId.code Keycode.NINE) (KeyId.shifted Keycode.ZERO))
  | 2, 7 => some (KeySpec.simple (KeyId.code Keycode.ZERO))
  | 1, 7 => some (KeySpec.altShift (KeyId.code Keycode.MINUS) (KeyId.code Keycode.EQUALS))
  | 1, 8 => some (KeySpec.altShift (KeyId.shifted Keycode.SIX) (KeyId.shifted Keycode.POUND))
  | 7, 8 => some (KeySpec.simple (KeyId.code Keycode.BACKSLASH))
  | 1, 9 => some (KeySpec.simple (KeyId.code Keycode.LEFT_ARROW))
  | 7, 9 => some (KeySpec.simple (KeyId.code Keycode.RIGHT_ARROW))
  | 6, 0 => some (KeySpec.simple (KeyId.code Keycode.TAB))
  | 1, 0 => some (KeySpec.simple (KeyId.code Keycode.Q))
  | 2, 1 => some (KeySpec.simple (KeyId.code Keycode.W))
  | 2, 2 => some (KeySpec.simple (KeyId.code Keycode.E))
  | 3, 3 => some (KeySpec.simple (KeyId.code Keycode.R))
  | 2, 3 => some (KeySpec.simple (KeyId.code Keycode.T))
  | 4, 4 => some (KeySpec.simple (KeyId.code Keycode.Y))
  | 3, 5 => some (KeySpec.simple (KeyId.code Keycode.U))
  | 2, 5 => some (KeySpec.simple (KeyId.code Keycode.I))
  | 3, 6 => some (KeySpec.simple (KeyId.code Keycode.O))
  | 3, 7 => some (KeySpec.simple (KeyId.code Keycode.P))
  | 4, 7 => some (KeySpec.simple (KeyId.shifted Keycode.QUOTE))
  | 3, 8 => some (KeySpec.simple (KeyId.code Keycode.LEFT_BRACKET))
  | 2, 8 => some (KeySpec.altShift (KeyId.shifted Keycode.MINUS) (KeyId.shifted Keycode.THREE))
  | 3, 9 => some (KeySpec.simple (KeyId.code Keycode.UP_ARROW))
  | 2, 9 => some (KeySpec.simple (KeyId.code Keycode.DOWN_ARROW))
  | 4, 0 => some (KeySpec.simple (KeyId.code Keycode.CAPS_LOCK))
  | 0, 1 => some (KeySpec.simple (KeyId.code Keycode.LEFT_CONTROL))
  | 4, 1 => some (KeySpec.simple (KeyId.code Keycode.A))
  | 5, 1 => some (KeySpec.simple (KeyId.code Keycode.S))
  | 3, 2 => some (KeySpec.simple (KeyId.code Keycode.D))
  | 4, 3 => some (KeySpec.simple (KeyId.code Keycode.F))
  | 5, 3 => some (KeySpec.simple (KeyId.code Keycode.G))
  | 5, 4 => some (KeySpec.simple (KeyId.code Keycode.H))
  | 4, 5 => some (KeySpec.simple (KeyId.code Keycode.J))
  | 4, 6 => some (KeySpec.simple (KeyId.code Keycode.K))
  | 5, 6 => some (KeySpec.simple (KeyId.code Keycode.L))
  | 5, 7 => some (KeySpec.altShift (KeyId.code Keycode.SEMICOLON) (KeyId.shifted Keycode.EQUALS))
  | 4, 8 => some (KeySpec.altShift (KeyId.code Keycode.KEYPAD_ASTERISK) (KeyId.shifted Keycode.SEMICOLON))
  | 5, 8 => some (KeySpec.simple (KeyId.code Keycode.RIGHT_BRACKET))
  | 4, 9 => some (KeySpec.simple (KeyId.code Keycode.RETURN))
  | 5, 0 => some (KeySpec.simple (KeyId.code Keycode.ALT))
  | 0, 0 => some (KeySpec.simple (KeyId.code Keycode.SHIFT))
  | 6, 1 => some (KeySpec.simple (KeyId.code Keycode.Z))
  | 4, 2 => some (KeySpec.simple (KeyId.code Keycode.X))
  | 5, 2 => some (KeySpec.simple (KeyId.code Keycode.C))
  | 6, 3 => some (KeySpec.simple (KeyId.code Keycode.V))
  | 6, 4 => some (KeySpec.simple (KeyId.code Keycode.B))
  | 5, 5 => some (KeySpec.simple (KeyId.code Keycode.N))
  | 6, 5 => some (KeySpec.simple (KeyId.code Keycode.M))
  | 6, 6 => some (KeySpec.simple (KeyId.code Keycode.COMMA))
  | 6, 7 => some (KeySpec.simple (KeyId.code Keycode.PERIOD))
  | 6, 8 => some (KeySpec.simple (KeyId.code Keycode.FORWARD_SLASH))
  | 5, 9 => some (KeySpec.simple (KeyId.code Keycode.DELETE))
  | 6, 9 => some (KeySpec.simple (KeyId.code Keycode.WINDOWS))
  | 6, 2 => some (KeySpec.simple (KeyId.code Keycode.SPACEBAR))
  | _, _ => none

/-- SoftwareScan r_opts: the bit patterns driven onto the 3 row pins. -/
def r_opts : List (List Bool) :=
  (List.range 8).map (fun x => int_to_bin x 3)

/-- SoftwareScan c_opts: the bit patterns driven onto the 4 column pins. -/
def c_opts : List (List Bool) :=
  (List.range 16).map (fun x => int_to_bin x 4)

/-- Accumulated effect of a software sweep: sink and debounce state,
events sent to the sink, and the key specs forwarded to
input_processor.input, in order. -/
structure ScanAcc where
  sink : Sink
  st : DebState
  events : List Ev
  forwarded : List KeySpec
deriving DecidableEq, Repr

/-- SoftwareScan.process: look the coordinate up in the table (a missing
entry yields none and is dropped) and forward a hit to the debounce
engine with the default shift flag. -/
def process (acc : ScanAcc) (row column : Nat) (now : ℚ) : ScanAcc :=
  match keys row column with
  | none => acc
  | some kc =>
      let r := input acc.sink acc.st kc false now
      ⟨r.sink, r.state, acc.events ++ r.events, acc.forwarded ++ [kc]⟩

/-- SoftwareScan.check: for every column value (outer) and row value
(inner) drive the corresponding int_to_bin patterns, strobe, and sample
the sense line w_line; a hit is processed immediately.  The physical
matrix is abstracted as the function w of the driven column and row bit
patterns. -/
def ss_check (w : List Bool → List Bool → Bool) (sink : Sink) (st : DebState) (now : ℚ) :
    ScanAcc :=
  c_opts.enum.foldl
    (fun acc p =>
      r_opts.enum.foldl
        (fun acc2 q => if w p.2 q.2 then process acc2 q.1 p.1 now else acc2)
        acc)
    ⟨sink, st, [], []⟩

/-- Observable actions of one HardwareScan.check tick: clock (strobe)
writes, the software sweep invocation, the absence notification and the
LED refresh. -/
inductive HwAct where
  | clockOff
  | clockOn
  | sweepRun
  | absenceRun
  | alignLeds
deriving DecidableEq, Repr

/-- HardwareScan.check: on an interrupt tick, deassert the clock, run
the sweep and reset the absence counter; otherwise bump the counter and
fire the absence notification past 100; every tick ends with a clock
pulse and the LED refresh.  Returns the new absence counter and the
action trace of the tick. -/
def hw_check (interrupt : Bool) (absence_count : Nat) : Nat × List HwAct :=
  if interrupt then
    (0, [HwAct.clockOff, HwAct.sweepRun, HwAct.clockOff, HwAct.clockOn, HwAct.alignLeds])
  else
    let c := absence_count + 1
    if 100 < c then
      (0, [HwAct.absenceRun, HwAct.clockOff, HwAct.clockOn, HwAct.alignLeds])
    else
      (c, [HwAct.clockOff, HwAct.clockOn, HwAct.alignLeds])

/-- BreakButtonProcessor.check: the edge debouncer is updated (its level
is the debounced_value argument) but the forwarding decision tests the
raw pin reading: when the raw line is not tripped, the break identity is
forwarded to the debounce engine with the shift-probe result.  The
second component records the specs forwarded by the call. -/
def break_check (raw_tripped : Bool) (debounced_value : Bool) (shift_probe : Bool)
    (sink : Sink) (s : DebState) (now : ℚ) : InputOut × List KeySpec :=
  if raw_tripped = false then
    (input sink s (KeySpec.simple (KeyId.code Keycode.BACKSPACE)) shift_probe now,
     [KeySpec.simple (KeyId.code Keycode.BACKSPACE)])
  else
    (⟨sink, s, [], false⟩, [])

/-! ## Helper lemmas about the expiry sweep -/

/-- Unfolding equation for one examination step of the expiry sweep. -/
theorem checkLoop_cons (now d sd : ℚ) (noIn : Bool) (sink : Sink) (rr : Option KeyId)
    (k : KeyId) (v : ℚ) (rest : List (KeyId × ℚ)) :
    checkLoop now d sd noIn sink rr ((k, v) :: rest)
      = if v + (if rr = some k then sd else if noIn then d / 2 else d) < now then
          ⟨(checkLoop now d sd noIn (key_up sink k).1 (some k) rest).queue,
           (checkLoop now d sd noIn (key_up sink k).1 (some k) rest).sink,
           (checkLoop now d sd noIn (key_up sink k).1 (some k) rest).recent_release,
           (key_up sink k).2 ++ (checkLoop now d sd noIn (key_up sink k).1 (some k) rest).events,
           k :: (checkLoop now d sd noIn (key_up sink k).1 (some k) rest).expired⟩
        else
          ⟨(k, v) :: (checkLoop now d sd noIn sink rr rest).queue,
           (checkLoop now d sd noIn sink rr rest).sink,
           (checkLoop now d sd noIn sink rr rest).recent_release,
           (checkLoop now d sd noIn sink rr rest).events,
           (checkLoop now d sd noIn sink rr rest).expired⟩ := rfl

/-- The queue surviving an expiry sweep is a sublist of the input queue. -/
theorem checkLoop_queue_sublist (now d sd : ℚ) (noIn : Bool) (q : List (KeyId × ℚ)) :
    ∀ (sink : Sink) (rr : Option KeyId),
      (checkLoop now d sd noIn sink rr q).queue.Sublist q := by
  induction q with
  | nil => intro sink rr; simp [checkLoop]
  | cons p rest ih =>
    intro sink rr
    obtain ⟨k, v⟩ := p
    rw [checkLoop_cons]
    by_cases hlt : v + (if rr = some k then sd else if noIn then d / 2 else d) < now
    · rw [if_pos hlt]; exact (ih _ _).cons _
    · rw [if_neg hlt]; exact (ih _ _).cons₂ _

/-- One examination step: the entry at the head of the queue is removed,
its up-event emitted and its identity recorded among the expired, exactly
when its dwell has elapsed strictly.  The dwell is the short delay when
the identity equals the recent release, else half the base delay when
the no-input flag is set, else the base delay. -/
theorem checkLoop_step (now d sd : ℚ) (noIn : Bool) (sink : Sink) (rr : Option KeyId)
    (k : KeyId) (v : ℚ) (rest : List (KeyId × ℚ)) (hk : ∀ p ∈ rest, p.1 ≠ k) :
    (k ∉ (checkLoop now d sd noIn sink rr ((k, v) :: rest)).queue.map Prod.fst
      ∧ k ∈ (checkLoop now d sd noIn sink rr ((k, v) :: rest)).expired
      ∧ (key_up sink k).2 <+: (checkLoop now d sd noIn sink rr ((k, v) :: rest)).events)
    ↔ v + (if rr = some k then sd else if noIn then d / 2 else d) < now := by
  by_cases hlt : v + (if rr = some k then sd else if noIn then d / 2 else d) < now
  · rw [checkLoop_cons, if_pos hlt]
    refine ⟨fun _ => hlt, fun _ => ⟨?_, by simp, ⟨_, rfl⟩⟩⟩
    intro hmem
    obtain ⟨p, hp, hpk⟩ := List.mem_map.mp hmem
    exact hk p ((checkLoop_queue_sublist now d sd noIn rest _ _).subset hp) hpk
  · rw [checkLoop_cons, if_neg hlt]
    refine ⟨fun h => absurd ?_ h.1, fun h => absurd h hlt⟩
    simp

/-! ## Helper lemmas about int_to_bin -/

/-- Any fuel at least the value computes the same digits. -/
theorem lsbDigitsGo_stable : ∀ v f : Nat, v ≤ f → lsbDigitsGo f v = lsbDigitsGo v v := by
  intro v
  induction v using Nat.strong_induction_on with
  | _ v ih =>
    intro f hf
    cases v with
    | zero => cases f with
      | zero => rfl
      | succ f => rfl
    | succ v =>
      cases f with
      | zero => omega
      | succ f =>
        have h1 : (v + 1) / 2 < v + 1 := Nat.div_lt_self (Nat.succ_pos v) one_lt_two
        simp only [lsbDigitsGo]
        rw [ih _ h1 f (Nat.le_of_lt_succ (Nat.lt_of_lt_of_le h1 hf)),
          ih _ h1 v (Nat.lt_succ_iff.mp h1)]

/-- Recurrence for the digit list of a positive number. -/
theorem lsbDigits_succ (v : Nat) :
    lsbDigits (v + 1) = decide ((v + 1) % 2 = 1) :: lsbDigits ((v + 1) / 2) := by
  show lsbDigitsGo (v + 1) (v + 1) = _
  simp only [lsbDigitsGo]
  rw [lsbDigitsGo_stable _ v
    (Nat.lt_succ_iff.mp (Nat.div_lt_self (Nat.succ_pos v) one_lt_two))]
  rfl

/-- The least-significant-bit-first digits evaluate back to the number. -/
theorem lsbVal_lsbDigits : ∀ v : Nat, lsbVal (lsbDigits v) = v := by
  intro v
  induction v using Nat.strong_induction_on with
  | _ v ih =>
    cases v with
    | zero => rfl
    | succ v =>
      rw [lsbDigits_succ, lsbVal,
        ih _ (Nat.div_lt_self (Nat.succ_pos v) one_lt_two)]
      by_cases h : (v + 1) % 2 = 1 <;> simp [h] <;> omega

/-- A value below 2 to the n has at most n binary digits. -/
theorem lsbDigits_length : ∀ n v : Nat, v < 2 ^ n → (lsbDigits v).length ≤ n := by
  intro n
  induction n with
  | zero =>
    intro v hv
    interval_cases v
    simp [lsbDigits, lsbDigitsGo]
  | succ n ih =>
    intro v hv
    cases v with
    | zero => simp [lsbDigits, lsbDigitsGo]
    | succ v =>
      rw [lsbDigits_succ, List.length_cons]
      have hdiv : (v + 1) / 2 < 2 ^ n := by
        rw [pow_succ] at hv
        exact Nat.div_lt_of_lt_mul (by omega)
      exact Nat.succ_le_succ (ih _ hdiv)

/-- Folding the big-endian value from an arbitrary accumulator. -/
theorem beVal_foldl (l : List Bool) :
    ∀ a : Nat, l.foldl (fun x b => 2 * x + (if b then 1 else 0)) a
      = a * 2 ^ l.length + beVal l := by
  induction l with
  | nil => intro a; simp [beVal]
  | cons b t ih =>
    intro a
    simp only [List.foldl_cons, List.length_cons, beVal] at *
    rw [ih (2 * a + (if b then 1 else 0)), ih (2 * 0 + (if b then 1 else 0))]
    ring

/-- Leading false digits do not change the big-endian value. -/
theorem beVal_replicate (m : Nat) (l : List Bool) :
    beVal (List.replicate m false ++ l) = beVal l := by
  have h : ∀ m : Nat,
      (List.replicate m false).foldl (fun x b => 2 * x + (if b then 1 else 0)) 0 = 0 := by
    intro m
    induction m with
    | zero => rfl
    | succ m ih => simpa [List.replicate_succ] using ih
  simp [beVal, List.foldl_append, h]

/-- Reversing turns the least-significant-bit-first value into the
big-endian value. -/
theorem beVal_reverse (l : List Bool) : beVal l.reverse = lsbVal l := by
  induction l with
  | nil => rfl
  | cons b t ih =>
    simp only [List.reverse_cons, lsbVal, beVal, List.foldl_append, List.foldl_cons,
      List.foldl_nil]
    rw [show (List.foldl (fun x b => 2 * x + (if b then 1 else 0)) 0 t.reverse) = beVal t.reverse
      from rfl, ih]
    ring

/-! ## Claim theorems -/

/-- C1: for every AltShift key observed while the sink shift flag is
live (and whose resolved alternate is not already pending), the emitted
down-event is release-SHIFT, then the alternate identity in its own
non-escaped press sequence, then press-SHIFT, and the sink shift flag
afterwards equals the flag before (true). -/
theorem conditional_escape_sequence (sink : Sink) (s : DebState) (k alt : KeyId)
    (sh : Bool) (now : ℚ) (h1 : sink.shift_down = true)
    (h2 : alt ∉ s.queue.map Prod.fst) :
    (input sink s (KeySpec.altShift k alt) sh now).events
      = Ev.release Keycode.SHIFT :: ((key_down ⟨false⟩ alt false).2 ++ [Ev.press Keycode.SHIFT])
    ∧ (input sink s (KeySpec.altShift k alt) sh now).sink.shift_down = true := by
  cases alt with
  | code c => simp [input, resolve, h1, h2, key_down, key_press, key_release]
  | shifted c => simp [input, resolve, h1, h2, key_down, key_press, key_release]

/-- C1 witness: the table entry AltShift(SIX, Shifted(SEVEN)) with the
modifier live emits exactly release-SHIFT, press-SHIFT, press-SEVEN,
release-SHIFT, press-SHIFT, and the shift flag ends true. -/
theorem conditional_escape_sequence_witness :
    (input ⟨true⟩ initState
        (KeySpec.altShift (KeyId.code Keycode.SIX) (KeyId.shifted Keycode.SEVEN)) false 0).events
      = [Ev.release Keycode.SHIFT, Ev.press Keycode.SHIFT, Ev.press Keycode.SEVEN,
         Ev.release Keycode.SHIFT, Ev.press Keycode.SHIFT]
    ∧ (input ⟨true⟩ initState
        (KeySpec.altShift (KeyId.code Keycode.SIX) (KeyId.shifted Keycode.SEVEN)) false 0).sink.shift_down
      = true := by
  have h := conditional_escape_sequence ⟨true⟩ initState (KeyId.code Keycode.SIX)
    (KeyId.shifted Keycode.SEVEN) false 0 rfl (by simp [initState])
  exact ⟨h.1.trans (by rfl), h.2⟩

/-- C2 counterexample: a call of input with the break identity and the
shift flag set recognizes the combination AND forwards the press of
that identity to the sink, contradicting the claim that no press is
forwarded by that call. -/
theorem shift_break_forwards_press :
    (input ⟨false⟩ initState (KeySpec.simple (KeyId.code Keycode.BACKSPACE)) true 0).break_combo
      = true
    ∧ Ev.press Keycode.BACKSPACE
        ∈ (input ⟨false⟩ initState (KeySpec.simple (KeyId.code Keycode.BACKSPACE)) true 0).events := by
  decide

/-- C2 amended: when input is called with the break identity and the
shift flag set and the identity is not already pending, the combination
is recognized and reported, and the call also forwards the down-event
press and enqueues the identity like any other key. -/
theorem shift_break_reported_and_forwarded (sink : Sink) (s : DebState) (now : ℚ)
    (h : KeyId.code Keycode.BACKSPACE ∉ s.queue.map Prod.fst) :
    (input sink s (KeySpec.simple (KeyId.code Keycode.BACKSPACE)) true now).break_combo = true
    ∧ (input sink s (KeySpec.simple (KeyId.code Keycode.BACKSPACE)) true now).events
        = [Ev.press Keycode.BACKSPACE]
    ∧ (input sink s (KeySpec.simple (KeyId.code Keycode.BACKSPACE)) true now).state.queue
        = s.queue ++ [(KeyId.code Keycode.BACKSPACE, now)] := by
  have hres : resolve sink.shift_down (KeySpec.simple (KeyId.code Keycode.BACKSPACE))
      = (KeyId.code Keycode.BACKSPACE, false) := rfl
  simp [input, hres, h, key_down, key_press]

/-- C2 witness for the amended claim at a concrete state. -/
theorem shift_break_reported_and_forwarded_witness :
    (input ⟨false⟩ initState (KeySpec.simple (KeyId.code Keycode.BACKSPACE)) true 0).break_combo
      = true
    ∧ (input ⟨false⟩ initState (KeySpec.simple (KeyId.code Keycode.BACKSPACE)) true 0).events
        = [Ev.press Keycode.BACKSPACE]
    ∧ (input ⟨false⟩ initState (KeySpec.simple (KeyId.code Keycode.BACKSPACE)) true 0).state.queue
        = [(KeyId.code Keycode.BACKSPACE, 0)] := by
  have h := shift_break_reported_and_forwarded ⟨false⟩ initState 0 (by simp [initState])
  exact ⟨h.1, h.2.1, h.2.2.trans (by rfl)⟩

/-- C3 counterexample: at the exact boundary now - observed_at = dwell
the code does NOT expire the entry, contradicting the claimed
greater-or-equal expiry condition: here the base dwell 0.15 has exactly
elapsed and the entry stays pending with no up-event. -/
theorem dwell_boundary_not_expired :
    ((3 : ℚ) / 20 - 0 ≥ 3 / 20)
    ∧ (check ⟨false⟩ ⟨[(KeyId.code 4, 0)], none, 3 / 20, 9 / 100, false⟩ (3 / 20)).state.queue
        = [(KeyId.code 4, 0)]
    ∧ (check ⟨false⟩ ⟨[(KeyId.code 4, 0)], none, 3 / 20, 9 / 100, false⟩ (3 / 20)).events = [] := by
  have hlt : ¬ ((0 : ℚ) + 3 / 20 < 3 / 20) := by norm_num
  refine ⟨by norm_num, ?_, ?_⟩ <;>
    simp [check, checkLoop_cons, checkLoop, hlt]

/-- C3 amended: an entry examined by check uses the short delay when its
identity equals recent_release, else half the base delay when the
no-input flag is set, else the base delay, and it is expired (removed,
recorded expired with its up-event emitted first) exactly when
now - observed_at exceeds the dwell STRICTLY.  Stated for the entry at
the head of the queue, whose examination state is the state at call
time; every later entry is examined the same way with the state left by
the earlier ones. -/
theorem check_expiry_strict (sink : Sink) (s : DebState) (now : ℚ) (k : KeyId) (v : ℚ)
    (rest : List (KeyId × ℚ)) (hq : s.queue = (k, v) :: rest)
    (hk : ∀ p ∈ rest, p.1 ≠ k) :
    (k ∉ (check sink s now).state.queue.map Prod.fst
      ∧ k ∈ (check sink s now).expired
      ∧ (key_up sink k).2 <+: (check sink s now).events)
    ↔ v + (if s.recent_release = some k then s.short_delay
           else if s.no_input_registered then s.delay / 2 else s.delay) < now := by
  have h := checkLoop_step now s.delay s.short_delay s.no_input_registered sink
    s.recent_release k v rest hk
  simpa [check, hq] using h

/-- C3 witness: with base delay 0.15 and a single pending entry observed
at 0, a check at time 1 expires it: removed, recorded, up-event first. -/
theorem check_expiry_strict_witness :
    KeyId.code 4
        ∉ (check ⟨false⟩ ⟨[(KeyId.code 4, 0)], none, 3 / 20, 9 / 100, false⟩ 1).state.queue.map
            Prod.fst
    ∧ KeyId.code 4 ∈ (check ⟨false⟩ ⟨[(KeyId.code 4, 0)], none, 3 / 20, 9 / 100, false⟩ 1).expired
    ∧ (key_up ⟨false⟩ (KeyId.code 4)).2
        <+: (check ⟨false⟩ ⟨[(KeyId.code 4, 0)], none, 3 / 20, 9 / 100, false⟩ 1).events := by
  have h := check_expiry_strict ⟨false⟩ ⟨[(KeyId.code 4, 0)], none, 3 / 20, 9 / 100, false⟩ 1
    (KeyId.code 4) 0 [] rfl (by simp)
  refine h.mpr ?_
  dsimp only
  rw [if_neg (fun hcon => Option.noConfusion hcon)]
  norm_num

/-- C4: a second input call for an identity that is already pending is a
no-op on the queue (no new entry, timestamps untouched) and emits no
sink event; moreover both input and check preserve the at-most-one-entry
invariant on resolved identities. -/
theorem at_most_one_pending (sink : Sink) (s : DebState) (spec : KeySpec) (sh : Bool)
    (now now2 : ℚ) :
    ((resolve sink.shift_down spec).1 ∈ s.queue.map Prod.fst →
      (input sink s spec sh now).state.queue = s.queue
        ∧ (input sink s spec sh now).events = [])
    ∧ ((s.queue.map Prod.fst).Nodup →
        ((input sink s spec sh now).state.queue.map Prod.fst).Nodup)
    ∧ ((s.queue.map Prod.fst).Nodup →
        ((check sink s now2).state.queue.map Prod.fst).Nodup) := by
  refine ⟨fun hm => by simp [input, hm], fun hn => ?_, fun hn => ?_⟩
  · by_cases hm : (resolve sink.shift_down spec).1 ∈ s.queue.map Prod.fst
    · simpa [input, hm] using hn
    · simp only [input, hm, if_neg]
      simp [List.nodup_append, hn, hm]
  · have h := (checkLoop_queue_sublist now2 s.delay s.short_delay s.no_input_registered
      s.queue sink s.recent_release).map Prod.fst
    exact hn.sublist h

/-- C4 witness at a concrete pending entry. -/
theorem at_most_one_pending_witness :
    ((input ⟨false⟩ ⟨[(KeyId.code 4, 0)], none, 3 / 20, 9 / 100, false⟩
          (KeySpec.simple (KeyId.code 4)) false 1).state.queue = [(KeyId.code 4, 0)]
      ∧ (input ⟨false⟩ ⟨[(KeyId.code 4, 0)], none, 3 / 20, 9 / 100, false⟩
          (KeySpec.simple (KeyId.code 4)) false 1).events = [])
    ∧ ((input ⟨false⟩ ⟨[(KeyId.code 4, 0)], none, 3 / 20, 9 / 100, false⟩
          (KeySpec.simple (KeyId.code 4)) false 1).state.queue.map Prod.fst).Nodup := by
  have h := at_most_one_pending ⟨false⟩ ⟨[(KeyId.code 4, 0)], none, 3 / 20, 9 / 100, false⟩
    (KeySpec.simple (KeyId.code 4)) false 1 1
  exact ⟨h.1 (by decide), h.2.1 (by decide)⟩

/-- C5: the software sweep probes every column value below 16 and row
value below 8; when the sense line answers exactly one driven
combination, the sweep forwards exactly the table entry of that
coordinate (and nothing when the coordinate is unmapped). -/
theorem sweep_single_hit : ∀ r0 : Nat, r0 < 8 → ∀ c0 : Nat, c0 < 16 →
    (ss_check (fun cb rb => decide (cb = int_to_bin c0 4 ∧ rb = int_to_bin r0 3))
        ⟨false⟩ initState 0).forwarded = (keys r0 c0).toList := by
  decide

/-- C5 witness: a hit at row 3, column 7 forwards exactly the key P; a
hit at the unmapped row 0, column 5 forwards nothing. -/
theorem sweep_single_hit_witness :
    (ss_check (fun cb rb => decide (cb = int_to_bin 7 4 ∧ rb = int_to_bin 3 3))
        ⟨false⟩ initState 0).forwarded = [KeySpec.simple (KeyId.code Keycode.P)]
    ∧ (ss_check (fun cb rb => decide (cb = int_to_bin 5 4 ∧ rb = int_to_bin 0 3))
        ⟨false⟩ initState 0).forwarded = [] := by
  exact ⟨(sweep_single_hit 3 (by decide) 7 (by decide)).trans (by rfl),
    (sweep_single_hit 0 (by decide) 5 (by decide)).trans (by rfl)⟩

/-- C6 counterexample: on an interrupt tick the strobe is NOT pulsed
(deassert then reassert) before the sweep runs: no clockOn action
precedes the sweep in the trace, so the claimed conjunction fails even
though the sweep runs once and the counter resets. -/
theorem no_strobe_pulse_before_sweep :
    ¬ (HwAct.clockOn ∈ (hw_check true 0).2.takeWhile (fun a => decide (a ≠ HwAct.sweepRun))
        ∧ (hw_check true 0).2.count HwAct.sweepRun = 1
        ∧ (hw_check true 0).1 = 0) := by
  decide

/-- C6 amended: on an interrupt tick the scanner deasserts the strobe,
invokes the sweep exactly once and resets the absence counter to 0; the
deassert-reassert strobe pulse of the tick happens after the sweep, in
the shared end-of-tick sequence. -/
theorem interrupt_tick_trace : ∀ n : Nat,
    hw_check true n
      = (0, [HwAct.clockOff, HwAct.sweepRun, HwAct.clockOff, HwAct.clockOn, HwAct.alignLeds])
    ∧ (hw_check true n).2.count HwAct.sweepRun = 1 := by
  intro n
  exact ⟨rfl, rfl⟩

/-- C7: the break controller forwards based on the RAW pin reading, not
the debounced level: with the raw line not tripped but the debounced
level inactive it still forwards the break identity, and with the raw
line tripped but the debounced level active it forwards nothing; the
forwarded call goes through input with the shift-probe flag. -/
theorem break_raw_gating :
    (break_check false false false ⟨false⟩ initState 0).2
        = [KeySpec.simple (KeyId.code Keycode.BACKSPACE)]
    ∧ (break_check true true false ⟨false⟩ initState 0).2 = []
    ∧ (break_check false false true ⟨false⟩ initState 0).1.events
        = [Ev.press Keycode.BACKSPACE]
    ∧ (break_check false false true ⟨false⟩ initState 0).1.break_combo = true := by
  decide

/-- C8: the expiry sweep terminates having examined every pending entry
exactly once: the surviving keys together with the expired keys are a
permutation of the input keys, and every input entry either survives
unchanged or has its identity recorded expired (with its up-event
emitted), even when removals happen while later entries remain. -/
theorem check_total_partition (now delay short_delay : ℚ) (noIn : Bool) :
    ∀ (q : List (KeyId × ℚ)) (sink : Sink) (rr : Option KeyId),
      ((checkLoop now delay short_delay noIn sink rr q).queue.map Prod.fst
          ++ (checkLoop now delay short_delay noIn sink rr q).expired).Perm
        (q.map Prod.fst)
      ∧ ∀ p ∈ q, p ∈ (checkLoop now delay short_delay noIn sink rr q).queue
          ∨ p.1 ∈ (checkLoop now delay short_delay noIn sink rr q).expired := by
  intro q
  induction q with
  | nil => intro sink rr; simp [checkLoop]
  | cons p rest ih =>
    intro sink rr
    obtain ⟨k, v⟩ := p
    rw [checkLoop_cons]
    by_cases hlt : v + (if rr = some k then short_delay else if noIn then delay / 2 else delay)
        < now
    · rw [if_pos hlt]
      refine ⟨List.perm_middle.trans ((ih _ _).1.cons k), ?_⟩
      intro p hp
      rcases List.mem_cons.mp hp with rfl | hp
      · exact Or.inr (List.mem_cons_self _ _)
      · rcases (ih _ _).2 p hp with h | h
        · exact Or.inl h
        · exact Or.inr (List.mem_cons_of_mem _ h)
    · rw [if_neg hlt]
      refine ⟨?_, ?_⟩
      · simpa using (ih sink rr).1.cons k
      · intro p hp
        rcases List.mem_cons.mp hp with rfl | hp
        · exact Or.inl (List.mem_cons_self _ _)
        · rcases (ih sink rr).2 p hp with h | h
          · exact Or.inl (List.mem_cons_of_mem _ h)
          · exact Or.inr h

/-- C8 witness at a concrete queue: the single entry either survives or
is recorded expired, and the partition is a permutation. -/
theorem check_total_partition_witness :
    ((checkLoop 1 (3 / 20) (9 / 100) false ⟨false⟩ none [(KeyId.code 4, 0)]).queue.map Prod.fst
        ++ (checkLoop 1 (3 / 20) (9 / 100) false ⟨false⟩ none [(KeyId.code 4, 0)]).expired).Perm
      ([(KeyId.code 4, 0)].map Prod.fst)
    ∧ ((KeyId.code 4, 0) ∈ (checkLoop 1 (3 / 20) (9 / 100) false ⟨false⟩ none
          [(KeyId.code 4, 0)]).queue
        ∨ KeyId.code 4 ∈ (checkLoop 1 (3 / 20) (9 / 100) false ⟨false⟩ none
          [(KeyId.code 4, 0)]).expired) := by
  have h := check_total_partition 1 (3 / 20) (9 / 100) false [(KeyId.code 4, 0)] ⟨false⟩ none
  exact ⟨h.1, h.2 (KeyId.code 4, 0) (List.mem_cons_self _ _)⟩

/-- C9: for every width n of at least 1 and value v below 2 to the n,
int_to_bin produces exactly n booleans whose most-significant-bit-first
value is v; these patterns are exactly what the sweep drives onto the 3
row pins and 4 column pins. -/
theorem int_to_bin_encoding :
    (∀ n v : Nat, 1 ≤ n → v < 2 ^ n →
      (int_to_bin v n).length = n ∧ beVal (int_to_bin v n) = v)
    ∧ r_opts = (List.range 8).map (fun x => int_to_bin x 3)
    ∧ c_opts = (List.range 16).map (fun x => int_to_bin x 4) := by
  refine ⟨?_, rfl, rfl⟩
  intro n v hn hv
  by_cases h0 : v = 0
  · subst h0
    refine ⟨?_, ?_⟩
    · simp [int_to_bin]
      omega
    · show beVal (List.replicate (n - 1) false ++ [false]) = 0
      rw [beVal_replicate]
      rfl
  · have hlen : (lsbDigits v).length ≤ n := lsbDigits_length n v hv
    refine ⟨?_, ?_⟩
    · simp [int_to_bin, h0]
      omega
    · simp [int_to_bin, h0, beVal_replicate, beVal_reverse, lsbVal_lsbDigits]

/-- C9 witness at width 4 and value 9. -/
theorem int_to_bin_encoding_witness :
    (int_to_bin 9 4).length = 4 ∧ beVal (int_to_bin 9 4) = 9 :=
  int_to_bin_encoding.1 4 9 (by decide) (by decide)

/-- C10: every input call clears the no-input flag, including a
re-observation of a pending identity; no_input sets it; check leaves it
unchanged, so once set it stays set across checks until a key is
observed. -/
theorem no_input_flag_lifecycle :
    (∀ (sink : Sink) (s : DebState) (spec : KeySpec) (sh : Bool) (now : ℚ),
      (input sink s spec sh now).state.no_input_registered = false)
    ∧ (∀ s : DebState, (no_input s).no_input_registered = true ∧ (no_input s).queue = s.queue)
    ∧ (∀ (sink : Sink) (s : DebState) (now : ℚ),
      (check sink s now).state.no_input_registered = s.no_input_registered) := by
  refine ⟨?_, fun s => ⟨rfl, rfl⟩, fun sink s now => rfl⟩
  intro sink s spec sh now
  by_cases hm : (resolve sink.shift_down spec).1 ∈ s.queue.map Prod.fst <;> simp [input, hm]

end BBC
